import Mathlib

/-!
Verification of the merge/score/state-machine core of the Semongko
(Suika/watermelon) game.  The definitions below are a shallow embedding of
the TypeScript source: `src/main.ts` (collision handler, `addFruit`,
`restartGame`), `src/game.ts` (the `Game` object: catalog, score,
highscore, fruit-body factory, tier lookup) and `src/constants.ts`.

Modelling conventions:
* JavaScript numbers are modelled as exact rationals `ℚ` (the quantities
  involved are far from float precision limits, and the catalog's 0.5
  lookup tolerance absorbs rounding).
* Mutable fields on engine bodies (`sizeIndex`, `popped`) are modelled as
  record fields; the `popped` flag is shared by object identity, so the
  game state carries the set of body ids whose `popped` flag has been set
  during/after a batch (`GameState.popped`), and a body counts as popped
  when either its own flag or its id is marked.
* `Bodies.fromVertices` builds a polygon, so fruit bodies produced by the
  factory carry no engine `circleRadius` (it is `none`); the handler reads
  it with a JavaScript `|| 0` default.
* A thrown JavaScript exception (catalog index out of range inside
  `generateFruitBody`) is modelled by `Option`: the surrounding batch
  stops processing (`halted`), keeping the mutations made so far.
* Side effects that do not touch game state (sounds, the transient
  static pop-animation body with collision mask 0x0040, DOM writes) are
  either dropped or recorded in an event log.
-/

/-- Game state machine states, from `GameStates` in src/types.ts. -/
inductive GState where
  | MENU
  | READY
  | DROP
  | LOSE
deriving DecidableEq, Repr

/-- Height threshold for the lose condition, from src/constants.ts
(`loseHeight = 84`). -/
def loseHeight : ℚ := 84

/-- Spawn height for dropped and preview fruits, from src/constants.ts
(`previewBallHeight = 32`). -/
def previewBallHeight : ℚ := 32

/-- One catalog entry (`FruitSize` in src/types.ts).  The shape fields
(`shapeType`, `sides`, `createVertices`) only influence the polygon
vertices handed to the physics engine, which no game-state field reads;
vertex generation itself is modelled separately by
`createCircleVertices`.  The `radius` field is the mutable cache written
by `generateFruitBody` (`config.radius = radius`). -/
structure FruitSize where
  image : String
  textureSize : ℚ
  scoreValue : ℕ
  scale : ℚ
  physicsScale : Option ℚ := none
  radius : Option ℚ := none
deriving DecidableEq, Repr, Inhabited

/-- The physics scale actually used: `physicsScale ?? scale`. -/
def FruitSize.effScale (c : FruitSize) : ℚ := c.physicsScale.getD c.scale

/-- Derived physics radius of a catalog entry:
`textureSize * physicsScale / 2` (src/game.ts, `generateFruitBody` and
`lookupFruitIndex`). -/
def FruitSize.computedRadius (c : FruitSize) : ℚ := c.textureSize * c.effScale / 2

/-- The default 11-tier catalog, `Game.fruitSizes` in src/game.ts. -/
def defaultFruitSizes : List FruitSize :=
  [ { image := "./assets/img/circle0.png",  textureSize := 1024, scoreValue := 2,  scale := 0.047 },
    { image := "./assets/img/circle1.png",  textureSize := 150,  scoreValue := 5,  scale := 0.426 },
    { image := "./assets/img/circle2.png",  textureSize := 228,  scoreValue := 9,  scale := 0.351 },
    { image := "./assets/img/circle3.png",  textureSize := 225,  scoreValue := 13, scale := 0.498 },
    { image := "./assets/img/circle4.png",  textureSize := 286,  scoreValue := 18, scale := 0.448 },
    { image := "./assets/img/circle5.png",  textureSize := 350,  scoreValue := 25, scale := 0.411 },
    { image := "./assets/img/circle6.png",  textureSize := 418,  scoreValue := 34, scale := 0.402 },
    { image := "./assets/img/circle7.png",  textureSize := 484,  scoreValue := 41, scale := 0.397 },
    { image := "./assets/img/circle8.png",  textureSize := 609,  scoreValue := 49, scale := 0.420 },
    { image := "./assets/img/circle9.png",  textureSize := 661,  scoreValue := 58, scale := 0.484 },
    { image := "./assets/img/circle10.png", textureSize := 778,  scoreValue := 65, scale := 0.493 } ]

/-- Score aggregation, `Game.calculateScore` in src/game.ts:
`fruitsMerged.reduce((total, count, sizeIndex) => total +
fruitSizes[sizeIndex].scoreValue * count, 0)`, i.e. a left fold carrying
the element index. -/
def calcScoreAux (sizes : List FruitSize) : ℕ → List ℕ → ℕ → ℕ
  | _, [], total => total
  | i, count :: rest, total =>
      calcScoreAux sizes (i + 1) rest (total + ((sizes.get? i).elim 0 FruitSize.scoreValue) * count)

/-- Score of a merge-count vector against a catalog. -/
def calcScore (sizes : List FruitSize) (merged : List ℕ) : ℕ :=
  calcScoreAux sizes 0 merged 0

/-- Index-carrying scan, the behaviour of `Array.prototype.findIndex`
(with `none` for the `-1` no-match result). -/
def findIdxFrom (p : FruitSize → Bool) : List FruitSize → ℕ → Option ℕ
  | [], _ => none
  | c :: rest, i => if p c then some i else findIdxFrom p rest (i + 1)

/-- Tier lookup by physics radius, `Game.lookupFruitIndex` in src/game.ts:
first catalog index whose computed radius is within 0.5 of the argument;
`null` when there is no match or the match is the last tier. -/
def lookupFruitIndex (sizes : List FruitSize) (radius : ℚ) : Option ℕ :=
  match findIdxFrom (fun c => |c.computedRadius - radius| < (0.5 : ℚ)) sizes 0 with
  | none => none
  | some i => if i = sizes.length - 1 then none else some i

/-- A physics-engine body as the collision handler sees it.  `sizeIndex`
and `popped` are the game's duck-typed tags (`FruitBody` in
src/types.ts); `circleRadius` is the engine field, absent on polygon
bodies. -/
structure Body where
  id : ℕ
  posX : ℚ
  posY : ℚ
  circleRadius : Option ℚ
  isStatic : Bool
  sizeIndex : Option ℕ
  popped : Bool
deriving DecidableEq, Repr

/-- The handler's radius read, `bodyA.circleRadius || 0` (JavaScript
`||`: both `undefined` and `0` yield `0`). -/
def radD (b : Body) : ℚ := b.circleRadius.getD 0

/-- The whole mutable game state touched by the verified core: the
`Game` singleton's fields plus the physics world (list of bodies), the
set of body ids whose `popped` flag was set, and the PRNG accumulator of
the `rand` closure (src/utils.ts). -/
structure GameState where
  stateIndex : GState
  score : ℕ
  fruitsMerged : List ℕ
  fruitSizes : List FruitSize
  currentFruitSize : ℕ
  nextFruitSize : ℕ
  highscore : ℕ
  seed : ℕ
  world : List Body
  popped : List ℕ
  previewBall : Option Body
  nextId : ℕ
deriving DecidableEq, Repr

/-- Recompute and store the score (`Game.calculateScore`). -/
def calculateScoreSt (g : GameState) : GameState :=
  { g with score := calcScore g.fruitSizes g.fruitsMerged }

/-- Persist the high score (`Game.saveHighscore`): recompute the score,
do nothing if it is below the stored highscore, otherwise overwrite. -/
def saveHighscoreSt (g : GameState) : GameState :=
  let g1 := calculateScoreSt g
  if g1.score < g1.highscore then g1 else { g1 with highscore := g1.score }

/-- Lose transition (`Game.loseGame`): set the LOSE state and save the
high score.  The runner disable and end-screen DOM write are external. -/
def loseGameSt (g : GameState) : GameState :=
  saveHighscoreSt { g with stateIndex := GState.LOSE }

/-- Truncation to an unsigned 32-bit pattern, the effect of the
JavaScript ToUint32/ToInt32 coercions performed by the bitwise
operators (signed and unsigned interpretations agree modulo 2^32). -/
def u32 (x : ℕ) : ℕ := x % 4294967296

/-- Math.imul: 32-bit integer multiplication. -/
def imul32 (a b : ℕ) : ℕ := u32 (a * b)

/-- Output word of one mulberry32 step (src/utils.ts), computed from the
already-incremented accumulator: the bit pattern of
`((t ^ t >>> 14) >>> 0)` where
`t = Math.imul(a ^ a >>> 15, a | 1)` and then
`t ^= t + Math.imul(t ^ t >>> 7, t | 61)`. -/
def mulberry32Val (a : ℕ) : ℕ :=
  let t0 := u32 a
  let t1 := imul32 (Nat.xor t0 (t0 >>> 15)) (t0 ||| 1)
  let t2 := u32 (Nat.xor t1 (u32 (t1 + imul32 (Nat.xor t1 (t1 >>> 7)) (t1 ||| 61))))
  u32 (Nat.xor t2 (t2 >>> 14))

/-- Draw the next queued tier, `Game.setNextFruitSize`:
`nextFruitSize = Math.floor(rand() * 5)` where `rand()` advances the
mulberry32 accumulator by 0x6D2B79F5 and returns the output word divided
by 2^32.  The preview-image DOM write is external. -/
def setNextFruitSizeSt (g : GameState) : GameState :=
  let seed1 := g.seed + 0x6D2B79F5
  let v := mulberry32Val seed1
  { g with
      seed := seed1,
      nextFruitSize := (Rat.floor ((v : ℚ) / 4294967296 * 5)).toNat }

/-- Cached radius of the last catalog tier,
`Game.fruitSizes[Game.fruitSizes.length - 1].radius`. -/
def lastRadius (g : GameState) : Option ℚ :=
  g.fruitSizes.getLast?.bind FruitSize.radius

/-- Fruit body factory, `Game.generateFruitBody`: resolve the catalog
entry (out-of-range index throws in JavaScript, modelled by `none`),
compute the physics radius, cache it on the entry, and build the tagged
body.  The polygon vertices built from `createCircleVertices` (or a
custom vertex function) are handed to `Bodies.fromVertices`, which is
why the resulting body has no engine `circleRadius`. -/
def generateFruitBody (g : GameState) (x y : ℚ) (sizeIndex : ℕ) (isStatic : Bool) :
    Option (GameState × Body) :=
  match g.fruitSizes.get? sizeIndex with
  | none => none
  | some config =>
      let radius := config.textureSize * (config.physicsScale.getD config.scale) / 2
      let sizes1 := g.fruitSizes.set sizeIndex { config with radius := some radius }
      let body : Body :=
        { id := g.nextId, posX := x, posY := y, circleRadius := none,
          isStatic := isStatic, sizeIndex := some sizeIndex, popped := false }
      some ({ g with fruitSizes := sizes1, nextId := g.nextId + 1 }, body)

/-- Increment entry `i` of the merge-count vector
(`Game.fruitsMerged[fruitA.sizeIndex] += 1`). -/
def bumpAt : List ℕ → ℕ → List ℕ
  | [], _ => []
  | c :: rest, 0 => (c + 1) :: rest
  | c :: rest, i + 1 => c :: bumpAt rest i

/-- Whether the handler sees a body as popped: its own `popped` field, or
its id was marked during this session (object-identity sharing of the
mutated flag). -/
def poppedOf (g : GameState) (b : Body) : Bool :=
  b.popped || g.popped.contains b.id

/-- One merge recorded by the collision handler: the two input ids, the
successor tier, and the midpoint where the successor spawns (also where
the pop animation plays). -/
structure MergeEvent where
  idA : ℕ
  idB : ℕ
  newSize : ℕ
  x : ℚ
  y : ℚ
deriving DecidableEq, Repr

/-- State threaded through one collision-start batch: the game state, the
log of merges performed, and whether processing has stopped (the lose
condition's early `return`, or a thrown exception). -/
structure BState where
  game : GameState
  log : List MergeEvent
  halted : Bool
deriving DecidableEq, Repr

/-- Successor tier computed by the handler: `sizeIndex + 1`, except 0
when the cached top-tier radius is truthy (present and nonzero) and
`bodyA.circleRadius || 0` reaches it
(`if (maxRadius && (bodyA.circleRadius || 0) >= maxRadius) newSize = 0`). -/
def newSizeOf (g : GameState) (bodyA : Body) (ia : ℕ) : ℕ :=
  match lastRadius g with
  | some m => if m ≠ 0 ∧ radD bodyA ≥ m then 0 else ia + 1
  | none => ia + 1

/-- Processing of a single collision pair, the body of the `for` loop in
the `collisionStart` handler (src/main.ts).  Filters: static bodies; the
lose condition on `position.y + (circleRadius || 0)`; missing or unequal
`sizeIndex`; already-popped bodies.  On a merge: successor tier is
`sizeIndex + 1`, or 0 when the cached top-tier radius is truthy and
`bodyA.circleRadius || 0` reaches it; the merge count is bumped; both
bodies are popped and removed from the world; the successor spawns at the
midpoint and the score is recomputed. -/
def stepPair (s : BState) (p : Body × Body) : BState :=
  if s.halted then s
  else
    let A := p.1
    let B := p.2
    if A.isStatic || B.isStatic then s
    else if A.posY + radD A < loseHeight ∨ B.posY + radD B < loseHeight then
      { s with game := loseGameSt s.game, halted := true }
    else
      match A.sizeIndex, B.sizeIndex with
      | some ia, some ib =>
          if ia ≠ ib then s
          else if poppedOf s.game A || poppedOf s.game B then s
          else
            let newSize := newSizeOf s.game A ia
            let midX := (A.posX + B.posX) / 2
            let midY := (A.posY + B.posY) / 2
            let g1 := { s.game with fruitsMerged := bumpAt s.game.fruitsMerged ia }
            let g2 := { g1 with popped := A.id :: B.id :: g1.popped }
            let g3 := { g2 with
                          world := g2.world.filter (fun b => b.id ≠ A.id && b.id ≠ B.id) }
            match generateFruitBody g3 midX midY newSize false with
            | none => { s with game := g3, halted := true }
            | some (g4, succBody) =>
                let g5 := calculateScoreSt { g4 with world := g4.world ++ [succBody] }
                { s with game := g5,
                         log := s.log ++ [⟨A.id, B.id, newSize, midX, midY⟩] }
      | _, _ => s

/-- Fold of `stepPair` over the remaining pairs of a batch. -/
def processPairs (s : BState) (ps : List (Body × Body)) : BState :=
  ps.foldl stepPair s

/-- One invocation of the `collisionStart` handler on a batch of pairs. -/
def processBatch (g : GameState) (ps : List (Body × Body)) : BState :=
  processPairs ⟨g, [], false⟩ ps

/-- Number of merges in a log that consumed the body with the given id. -/
def countInputs (id : ℕ) (log : List MergeEvent) : ℕ :=
  log.countP (fun e => e.idA = id || e.idB = id)

/-- Drop-input handler, `Game.addFruit` (src/main.ts).  The guard rejects
any state other than READY before any effect.  Otherwise: switch to DROP,
spawn the current fruit at the pointer x, promote the queued tier, draw a
new one, recompute the score, and replace the preview body (the new
preview is only re-added to the world by the later 500 ms cooldown
callback, which also restores READY).  A thrown exception (catalog index
out of range) is `none`. -/
def addFruit (g : GameState) (x : ℚ) : Option GameState :=
  if g.stateIndex ≠ GState.READY then some g
  else
    let g1 := { g with stateIndex := GState.DROP }
    match generateFruitBody g1 x previewBallHeight g1.currentFruitSize false with
    | none => none
    | some (g2, latestFruit) =>
        let g3 := { g2 with world := g2.world ++ [latestFruit] }
        let g4 := { g3 with currentFruitSize := g3.nextFruitSize }
        let g5 := calculateScoreSt (setNextFruitSizeSt g4)
        let g6 :=
          match g5.previewBall with
          | some pb => { g5 with world := g5.world.filter (fun b => b.id ≠ pb.id) }
          | none => g5
        match generateFruitBody g6 x previewBallHeight g6.currentFruitSize true with
        | none => none
        | some (g7, pb1) => some { g7 with previewBall := some pb1 }

/-- A 3-tier catalog with score values [2, 5, 9], the scenario catalog
used by the specification's scoring example. -/
def threeTierCatalog : List FruitSize :=
  [ { image := "t0", textureSize := 100, scoreValue := 2, scale := 1 },
    { image := "t1", textureSize := 200, scoreValue := 5, scale := 1 },
    { image := "t2", textureSize := 300, scoreValue := 9, scale := 1 } ]

/-- The score as a sum attributing to each tier index its own
(consumed-tier) score value, matching the source's
`fruitSizes[sizeIndex].scoreValue * count` where `sizeIndex` is the
index into `fruitsMerged`. -/
def consumedTierScore (sizes : List FruitSize) (merged : List ℕ) : ℕ :=
  ∑ k ∈ Finset.range merged.length,
    ((sizes.get? k).elim 0 FruitSize.scoreValue) * merged.getD k 0

/-- Polygon approximation of a circle, `createCircleVertices` in
src/game.ts: when `sides` is not supplied it defaults to 12 on mobile
and 20 otherwise; the points are placed at equal angular steps of
`2 * Math.PI / actualSides` starting from angle 0, as
`(radius * cos(angle), radius * sin(angle))`. -/
noncomputable def createCircleVertices (isMobile : Bool) (radius : ℝ) (sides : Option ℕ) :
    List (ℝ × ℝ) :=
  let actualSides := sides.getD (if isMobile then 12 else 20)
  let angleStep := 2 * Real.pi / (actualSides : ℝ)
  (List.range actualSides).map fun (i : ℕ) =>
    (radius * Real.cos ((i : ℝ) * angleStep), radius * Real.sin ((i : ℝ) * angleStep))

/-- Synthetic non-static circle body whose spec-side top edge
(`position.y - radius = 50`) is above the lose line while its code-side
value (`position.y + radius = 150`) is not. -/
def c2X : Body :=
  { id := 4, posX := 100, posY := 100, circleRadius := some 50,
    isStatic := false, sizeIndex := none, popped := false }

/-- Partner body for the C2 counterexample pair. -/
def c2Y : Body :=
  { id := 5, posX := 120, posY := 300, circleRadius := none,
    isStatic := false, sizeIndex := none, popped := false }

/-- A quiet READY-state session used by the concrete batch scenarios. -/
def readyState : GameState :=
  { stateIndex := GState.READY, score := 0,
    fruitsMerged := [0, 0, 0, 0, 0, 0, 0, 0, 0, 0, 0],
    fruitSizes := defaultFruitSizes, currentFruitSize := 0, nextFruitSize := 0,
    highscore := 0, seed := 0, world := [], popped := [],
    previewBall := none, nextId := 10 }

/-- First of three mutually touching tier-0 fruits. -/
def c5A : Body :=
  { id := 1, posX := 100, posY := 400, circleRadius := none,
    isStatic := false, sizeIndex := some 0, popped := false }

/-- Second of three mutually touching tier-0 fruits. -/
def c5B : Body :=
  { id := 2, posX := 140, posY := 400, circleRadius := none,
    isStatic := false, sizeIndex := some 0, popped := false }

/-- Third of three mutually touching tier-0 fruits, reported only in the
second overlapping pair. -/
def c5C : Body :=
  { id := 3, posX := 120, posY := 440, circleRadius := none,
    isStatic := false, sizeIndex := some 0, popped := false }

/-- Session holding the three touching fruits. -/
def tripleState : GameState :=
  { readyState with world := [c5A, c5B, c5C] }

/-- Batch state holding just the two touching tier-0 fruits. -/
def pairState : BState := ⟨{ readyState with world := [c5A, c5B] }, [], false⟩

/-- Non-static body above the lose line (`position.y + 0 = 10 < 84`). -/
def c2L : Body :=
  { id := 6, posX := 100, posY := 10, circleRadius := none,
    isStatic := false, sizeIndex := none, popped := false }

/-- Partner body of the losing pair, also above the line. -/
def c2M : Body :=
  { id := 7, posX := 120, posY := 10, circleRadius := none,
    isStatic := false, sizeIndex := none, popped := false }

/-- Catalog whose terminal tier already carries its cached computed
radius 191.777 (written when a terminal-tier body was generated). -/
def c3Sizes : List FruitSize :=
  defaultFruitSizes.dropLast ++
    [{ image := "./assets/img/circle10.png", textureSize := 778, scoreValue := 65,
       scale := 0.493, radius := some 191.777 }]

/-- Terminal-tier fruit with engine radius 192 at or above the cached
top-tier radius. -/
def c3A : Body :=
  { id := 1, posX := 100, posY := 400, circleRadius := some 192,
    isStatic := false, sizeIndex := some 10, popped := false }

/-- Second terminal-tier fruit of the colliding pair. -/
def c3B : Body :=
  { id := 2, posX := 140, posY := 400, circleRadius := some 192,
    isStatic := false, sizeIndex := some 10, popped := false }

/-- Batch state for the wraparound scenario. -/
def c3S : BState :=
  ⟨{ readyState with fruitSizes := c3Sizes, world := [c3A, c3B] }, [], false⟩

theorem calcScoreAux_eq_sum (sizes : List FruitSize) :
    ∀ (merged : List ℕ) (i total : ℕ),
      calcScoreAux sizes i merged total =
        total + ∑ k ∈ Finset.range merged.length,
          ((sizes.get? (i + k)).elim 0 FruitSize.scoreValue) * merged.getD k 0 := by
  intro merged
  induction merged with
  | nil => intro i total; simp [calcScoreAux]
  | cons c rest ih =>
      intro i total
      rw [calcScoreAux, ih]
      rw [List.length_cons, Finset.sum_range_succ']
      simp only [List.getD_cons_succ, List.getD_cons_zero, Nat.add_zero]
      have hidx : ∀ k : ℕ, i + (k + 1) = i + 1 + k := by omega
      have hsum :
          (∑ k ∈ Finset.range rest.length,
            ((sizes.get? (i + (k + 1))).elim 0 FruitSize.scoreValue) * rest.getD k 0) =
          ∑ k ∈ Finset.range rest.length,
            ((sizes.get? (i + 1 + k)).elim 0 FruitSize.scoreValue) * rest.getD k 0 := by
        refine Finset.sum_congr rfl ?_
        intro k _
        rw [hidx k]
      rw [hsum]
      ring

/-- C4 counterexample input: merging two tier-0 fruits in the 3-tier
scenario catalog yields score 2 (the consumed tier-0 value), not the 5
the claim derives from successor attribution. -/
theorem C4_counterexample :
    calcScore threeTierCatalog [1, 0, 0] = 2 ∧ calcScore threeTierCatalog [1, 0, 0] ≠ 5 := by
  norm_num [calcScore, calcScoreAux, threeTierCatalog]

/-- C4 (amended): `calculateScore` sums `mergeCountsByTier[i] *
tier[i].scoreValue`, attributing each merge to the consumed tier's own
score value; in the 3-tier scenario with score values [2, 5, 9] and
merge counts [1, 0, 0] the resulting score is 2. -/
theorem C4_calculateScore_consumed_tier :
    (∀ (sizes : List FruitSize) (merged : List ℕ),
        calcScore sizes merged = consumedTierScore sizes merged)
    ∧ calcScore threeTierCatalog [1, 0, 0] = 2 := by
  constructor
  · intro sizes merged
    rw [calcScore, calcScoreAux_eq_sum, consumedTierScore]
    simp
  · norm_num [calcScore, calcScoreAux, threeTierCatalog]

/-- C6: looking up each non-terminal default tier's computed radius
returns that tier's index; looking up the terminal tier's exact computed
radius returns none. -/
theorem C6_lookup_roundtrip :
    (∀ i : Fin 10,
        lookupFruitIndex defaultFruitSizes
          ((defaultFruitSizes.getD i.val default).computedRadius) = some i.val)
    ∧ lookupFruitIndex defaultFruitSizes
        ((defaultFruitSizes.getD 10 default).computedRadius) = none := by
  constructor
  · intro i
    fin_cases i <;>
      norm_num [lookupFruitIndex, findIdxFrom, defaultFruitSizes,
        FruitSize.computedRadius, FruitSize.effScale, abs_lt]
  · norm_num [lookupFruitIndex, findIdxFrom, defaultFruitSizes,
      FruitSize.computedRadius, FruitSize.effScale, abs_lt]

theorem saveHighscore_le (g : GameState) :
    g.highscore ≤ (saveHighscoreSt g).highscore := by
  simp only [saveHighscoreSt, calculateScoreSt]
  split
  · exact le_refl _
  · next h => exact le_of_not_lt h

theorem saveHighscore_highscore_eq (g : GameState)
    (h : calcScore g.fruitSizes g.fruitsMerged < g.highscore) :
    (saveHighscoreSt g).highscore = g.highscore := by
  simp only [saveHighscoreSt, calculateScoreSt]
  rw [if_pos h]

theorem saveHighscore_highscore_overwrite (g : GameState)
    (h : ¬ calcScore g.fruitSizes g.fruitsMerged < g.highscore) :
    (saveHighscoreSt g).highscore = calcScore g.fruitSizes g.fruitsMerged := by
  simp only [saveHighscoreSt, calculateScoreSt]
  rw [if_neg h]

/-- C8: the stored highscore never decreases: a single `saveHighscore`
call with score below the stored highscore leaves it unchanged, any
other call overwrites it with the (not smaller) recomputed score, and
any sequence of calls with arbitrary merge-count vectors is monotone. -/
theorem C8_highscore_monotonic :
    (∀ (g : GameState) (fms : List (List ℕ)),
        g.highscore ≤
          (fms.foldl (fun h fm => saveHighscoreSt { h with fruitsMerged := fm }) g).highscore)
    ∧ (∀ (g : GameState) (fm : List ℕ),
        calcScore g.fruitSizes fm < g.highscore →
          (saveHighscoreSt { g with fruitsMerged := fm }).highscore = g.highscore)
    ∧ (∀ (g : GameState) (fm : List ℕ),
        ¬ calcScore g.fruitSizes fm < g.highscore →
          (saveHighscoreSt { g with fruitsMerged := fm }).highscore = calcScore g.fruitSizes fm
          ∧ g.highscore ≤ (saveHighscoreSt { g with fruitsMerged := fm }).highscore) := by
  refine ⟨?_, ?_, ?_⟩
  · intro g fms
    induction fms generalizing g with
    | nil => exact le_refl _
    | cons fm rest ih =>
        calc g.highscore ≤ (saveHighscoreSt { g with fruitsMerged := fm }).highscore :=
              saveHighscore_le { g with fruitsMerged := fm }
          _ ≤ _ := ih _
  · intro g fm h
    exact saveHighscore_highscore_eq _ h
  · intro g fm h
    exact ⟨saveHighscore_highscore_overwrite { g with fruitsMerged := fm } h,
      saveHighscore_le { g with fruitsMerged := fm }⟩

/-- C8 witness: one below-highscore call leaves the stored value, and a
two-call sequence never decreases it. -/
theorem C8_highscore_monotonic_witness :
    calcScore defaultFruitSizes [0, 0, 0, 0, 0, 0, 0, 0, 0, 0, 0] <
      ({ stateIndex := GState.LOSE, score := 0,
         fruitsMerged := [0, 0, 0, 0, 0, 0, 0, 0, 0, 0, 0],
         fruitSizes := defaultFruitSizes, currentFruitSize := 0, nextFruitSize := 0,
         highscore := 7, seed := 0, world := [], popped := [],
         previewBall := none, nextId := 0 } : GameState).highscore
    ∧ (saveHighscoreSt
        { ({ stateIndex := GState.LOSE, score := 0,
             fruitsMerged := [0, 0, 0, 0, 0, 0, 0, 0, 0, 0, 0],
             fruitSizes := defaultFruitSizes, currentFruitSize := 0, nextFruitSize := 0,
             highscore := 7, seed := 0, world := [], popped := [],
             previewBall := none, nextId := 0 } : GameState)
          with fruitsMerged := [0, 0, 0, 0, 0, 0, 0, 0, 0, 0, 0] }).highscore = 7 := by
  refine ⟨by simp [calcScore, calcScoreAux, defaultFruitSizes], ?_⟩
  exact C8_highscore_monotonic.2.1 _ _ (by simp [calcScore, calcScoreAux, defaultFruitSizes])

/-- C9: a drop request in any state other than READY (in particular
DROP) is ignored outright: `addFruit` returns the state unchanged, so no
body is spawned and the queued tiers and the session state stay as they
were. -/
theorem C9_addFruit_rejected_outside_ready (g : GameState) (x : ℚ)
    (h : g.stateIndex ≠ GState.READY) :
    addFruit g x = some g := by
  rw [addFruit, if_pos h]

theorem u32_lt (x : ℕ) : u32 x < 4294967296 :=
  Nat.mod_lt _ (by norm_num)

theorem mulberry32Val_lt (a : ℕ) : mulberry32Val a < 4294967296 := by
  rw [mulberry32Val]
  exact u32_lt _

theorem floorRand_lt_5 (seed : ℕ) :
    (Rat.floor ((mulberry32Val seed : ℚ) / 4294967296 * 5)).toNat < 5 := by
  have hv : mulberry32Val seed < 4294967296 := mulberry32Val_lt _
  have hq : ((mulberry32Val seed : ℚ) / 4294967296 * 5) < 5 := by
    have h1 : ((mulberry32Val seed : ℚ)) < 4294967296 := by exact_mod_cast hv
    have h2 : ((mulberry32Val seed : ℚ) / 4294967296) < 1 := by
      rw [div_lt_one (by norm_num)]
      exact h1
    nlinarith
  have hf : Rat.floor ((mulberry32Val seed : ℚ) / 4294967296 * 5) < 5 := by
    by_contra hcon
    push_neg at hcon
    have h5 : ((5 : ℤ) : ℚ) ≤ (mulberry32Val seed : ℚ) / 4294967296 * 5 :=
      Rat.le_floor.mp hcon
    norm_num at h5
    linarith
  omega

theorem setNextFruitSize_lt_5 (g : GameState) :
    (setNextFruitSizeSt g).nextFruitSize < 5 := by
  rw [setNextFruitSizeSt]
  dsimp only
  exact floorRand_lt_5 _

/-- C10: every `setNextFruitSize` call puts `nextFruitSize` in
{0,...,4}; consequently a READY-state drop whose queued tiers satisfy
that bound (as they always do, being assigned only from
`setNextFruitSize` output) spawns its fruit at a catalog index below 5,
in bounds for the 11-tier catalog, assigns `currentFruitSize` from
`nextFruitSize`, and re-establishes the bound. -/
theorem C10_next_fruit_low_tier :
    (∀ g : GameState, (setNextFruitSizeSt g).nextFruitSize < 5)
    ∧ (∀ (g : GameState) (x : ℚ),
        g.stateIndex = GState.READY →
        g.currentFruitSize < 5 →
        g.nextFruitSize < 5 →
        g.fruitSizes.length = 11 →
        (∀ pb, g.previewBall = some pb → pb.id ≠ g.nextId) →
        ∃ (g1 : GameState) (latest : Body),
          addFruit g x = some g1
          ∧ latest.sizeIndex = some g.currentFruitSize
          ∧ g.currentFruitSize < 5
          ∧ latest ∈ g1.world
          ∧ g1.currentFruitSize = g.nextFruitSize
          ∧ g1.currentFruitSize < 5
          ∧ g1.nextFruitSize < 5) := by
  refine ⟨setNextFruitSize_lt_5, ?_⟩
  intro g x hready hcur hnext hlen hpb
  have hcur11 : g.currentFruitSize < g.fruitSizes.length := by omega
  obtain ⟨c1, hc1⟩ : ∃ c, g.fruitSizes.get? g.currentFruitSize = some c :=
    ⟨_, List.get?_eq_get hcur11⟩
  have hnext11 :
      g.nextFruitSize <
        (g.fruitSizes.set g.currentFruitSize
          { c1 with radius := some (c1.textureSize * (c1.physicsScale.getD c1.scale) / 2) }).length := by
    rw [List.length_set]
    omega
  obtain ⟨c2, hc2⟩ :
      ∃ c, (g.fruitSizes.set g.currentFruitSize
        { c1 with radius := some (c1.textureSize * (c1.physicsScale.getD c1.scale) / 2) }).get?
          g.nextFruitSize = some c :=
    ⟨_, List.get?_eq_get hnext11⟩
  have hnotne : ¬ g.stateIndex ≠ GState.READY := fun hn => hn hready
  rw [addFruit, if_neg hnotne]
  dsimp only
  rw [generateFruitBody]
  dsimp only
  rw [hc1]
  dsimp only
  rw [generateFruitBody]
  simp only [calculateScoreSt, setNextFruitSizeSt]
  cases hprev : g.previewBall with
  | none =>
      dsimp only
      rw [hc2]
      dsimp only
      refine ⟨_, ({ id := g.nextId, posX := x, posY := previewBallHeight,
                    circleRadius := none, isStatic := false,
                    sizeIndex := some g.currentFruitSize, popped := false } : Body),
        rfl, rfl, hcur, ?_, rfl, hnext, ?_⟩
      · exact List.mem_append_right _ (List.mem_singleton.mpr rfl)
      · exact floorRand_lt_5 _
  | some pb =>
      dsimp only
      rw [hc2]
      dsimp only
      refine ⟨_, ({ id := g.nextId, posX := x, posY := previewBallHeight,
                    circleRadius := none, isStatic := false,
                    sizeIndex := some g.currentFruitSize, popped := false } : Body),
        rfl, rfl, hcur, ?_, rfl, hnext, ?_⟩
      · refine List.mem_filter.mpr ⟨List.mem_append_right _ (List.mem_singleton.mpr rfl), ?_⟩
        have hid : pb.id ≠ g.nextId := hpb pb hprev
        simp only [decide_eq_true_eq]
        omega
      · exact floorRand_lt_5 _

/-- C9 witness: a concrete DROP-state drop request is a no-op. -/
theorem C9_addFruit_rejected_outside_ready_witness :
    ({ stateIndex := GState.DROP, score := 0, fruitsMerged := [],
       fruitSizes := defaultFruitSizes, currentFruitSize := 0, nextFruitSize := 0,
       highscore := 0, seed := 0, world := [], popped := [],
       previewBall := none, nextId := 0 } : GameState).stateIndex ≠ GState.READY
    ∧ addFruit
        { stateIndex := GState.DROP, score := 0, fruitsMerged := [],
          fruitSizes := defaultFruitSizes, currentFruitSize := 0, nextFruitSize := 0,
          highscore := 0, seed := 0, world := [], popped := [],
          previewBall := none, nextId := 0 } 320 =
      some
        { stateIndex := GState.DROP, score := 0, fruitsMerged := [],
          fruitSizes := defaultFruitSizes, currentFruitSize := 0, nextFruitSize := 0,
          highscore := 0, seed := 0, world := [], popped := [],
          previewBall := none, nextId := 0 } :=
  ⟨by decide, C9_addFruit_rejected_outside_ready _ 320 (by decide)⟩

/-- C7: for positive radius and at least 3 sides, the generated polygon
has exactly `sides` points, point k is
`(radius * cos(2 pi k / sides), radius * sin(2 pi k / sides))`
(equal angular steps of `2 pi / sides` from angle 0), and every point is
at Euclidean distance `radius` from the origin. -/
theorem C7_circle_vertices (m : Bool) (radius : ℝ) (sides : ℕ)
    (hr : 0 < radius) (hs : 3 ≤ sides) :
    (createCircleVertices m radius (some sides)).length = sides
    ∧ (∀ k, k < sides →
        (createCircleVertices m radius (some sides)).get? k =
          some (radius * Real.cos (k * (2 * Real.pi / sides)),
                radius * Real.sin (k * (2 * Real.pi / sides))))
    ∧ (∀ pt ∈ createCircleVertices m radius (some sides),
        Real.sqrt (pt.1 ^ 2 + pt.2 ^ 2) = radius) := by
  have hunf : createCircleVertices m radius (some sides) =
      (List.range sides).map (fun i : ℕ =>
        (radius * Real.cos (i * (2 * Real.pi / sides)),
         radius * Real.sin (i * (2 * Real.pi / sides)))) := by
    unfold createCircleVertices
    rfl
  refine ⟨?_, ?_, ?_⟩
  · rw [hunf, List.length_map, List.length_range]
  · intro k hk
    rw [hunf, List.get?_eq_getElem?]
    simp only [List.getElem?_map, List.getElem?_range, hk, if_pos]
    rfl
  · intro pt hpt
    rw [hunf] at hpt
    simp only [List.mem_map, List.mem_range] at hpt
    obtain ⟨i, _, rfl⟩ := hpt
    have hsum :
        (radius * Real.cos (i * (2 * Real.pi / sides))) ^ 2 +
          (radius * Real.sin (i * (2 * Real.pi / sides))) ^ 2 = radius ^ 2 := by
      rw [mul_pow, mul_pow, ← mul_add, Real.cos_sq_add_sin_sq, mul_one]
    dsimp only
    rw [hsum]
    exact Real.sqrt_sq hr.le

/-- C7 witness: radius 2, sides 3 on the desktop path. -/
theorem C7_circle_vertices_witness :
    (0 : ℝ) < 2 ∧ 3 ≤ 3
    ∧ ((createCircleVertices false 2 (some 3)).length = 3
        ∧ (∀ k, k < 3 →
            (createCircleVertices false 2 (some 3)).get? k =
              some (2 * Real.cos (k * (2 * Real.pi / 3)),
                    2 * Real.sin (k * (2 * Real.pi / 3))))
        ∧ (∀ pt ∈ createCircleVertices false 2 (some 3),
            Real.sqrt (pt.1 ^ 2 + pt.2 ^ 2) = 2)) :=
  ⟨by norm_num, by norm_num, by
    have h := C7_circle_vertices false 2 3 (by norm_num) (by norm_num)
    exact_mod_cast h⟩

theorem stepPair_merge (s : BState) (A B : Body) (ia : ℕ) (c : FruitSize)
    (hhalt : s.halted = false)
    (hsA : A.isStatic = false) (hsB : B.isStatic = false)
    (hnl : ¬ (A.posY + radD A < loseHeight ∨ B.posY + radD B < loseHeight))
    (hiA : A.sizeIndex = some ia) (hiB : B.sizeIndex = some ia)
    (hpA : poppedOf s.game A = false) (hpB : poppedOf s.game B = false)
    (hc : s.game.fruitSizes.get? (newSizeOf s.game A ia) = some c) :
    stepPair s (A, B) =
      { game :=
          calculateScoreSt
            { s.game with
                fruitsMerged := bumpAt s.game.fruitsMerged ia,
                popped := A.id :: B.id :: s.game.popped,
                world := (s.game.world.filter fun b => b.id ≠ A.id && b.id ≠ B.id) ++
                  [{ id := s.game.nextId, posX := (A.posX + B.posX) / 2,
                     posY := (A.posY + B.posY) / 2, circleRadius := none,
                     isStatic := false, sizeIndex := some (newSizeOf s.game A ia),
                     popped := false }],
                fruitSizes := s.game.fruitSizes.set (newSizeOf s.game A ia)
                  { c with radius := some (c.textureSize * (c.physicsScale.getD c.scale) / 2) },
                nextId := s.game.nextId + 1 },
        log := s.log ++ [⟨A.id, B.id, newSizeOf s.game A ia,
                          (A.posX + B.posX) / 2, (A.posY + B.posY) / 2⟩],
        halted := false } := by
  rw [stepPair, if_neg (by simp [hhalt])]
  dsimp only
  rw [if_neg (by simp [hsA, hsB])]
  rw [if_neg hnl]
  rw [hiA, hiB]
  dsimp only
  rw [if_neg (by simp)]
  rw [if_neg (by simp [hpA, hpB])]
  rw [generateFruitBody]
  dsimp only
  rw [hc]
  dsimp only
  rw [hhalt]

theorem newSizeOf_no_wrap (g : GameState) (A : Body) (ia : ℕ)
    (hrA : A.circleRadius = none)
    (hm : ∀ r, lastRadius g = some r → 0 < r) :
    newSizeOf g A ia = ia + 1 := by
  rw [newSizeOf]
  cases hlr : lastRadius g with
  | none => rfl
  | some r =>
      have h0 : 0 < r := hm r hlr
      have : ¬ (r ≠ 0 ∧ radD A ≥ r) := by
        rintro ⟨-, hge⟩
        rw [radD, hrA, Option.getD_none] at hge
        exact absurd h0 (not_lt.mpr hge)
      dsimp only
      rw [if_neg this]

theorem newSizeOf_wrap (g : GameState) (A : Body) (ia : ℕ) (r : ℚ)
    (hlr : lastRadius g = some r) (hr0 : r ≠ 0) (hge : radD A ≥ r) :
    newSizeOf g A ia = 0 := by
  rw [newSizeOf, hlr]
  dsimp only
  rw [if_pos ⟨hr0, hge⟩]

theorem bumpAt_getD_self : ∀ (l : List ℕ) (i : ℕ), i < l.length →
    (bumpAt l i).getD i 0 = l.getD i 0 + 1 := by
  intro l
  induction l with
  | nil => intro i h; simp at h
  | cons c rest ih =>
      intro i h
      cases i with
      | zero => simp [bumpAt]
      | succ j =>
          simp only [bumpAt, List.getD_cons_succ]
          exact ih j (by simpa using h)

theorem bumpAt_getD_ne : ∀ (l : List ℕ) (i j : ℕ), j ≠ i →
    (bumpAt l i).getD j 0 = l.getD j 0 := by
  intro l
  induction l with
  | nil => intro i j _; simp [bumpAt]
  | cons c rest ih =>
      intro i j hne
      cases i with
      | zero =>
          cases j with
          | zero => exact absurd rfl hne
          | succ k => simp [bumpAt]
      | succ i' =>
          cases j with
          | zero => simp [bumpAt]
          | succ k =>
              simp only [bumpAt, List.getD_cons_succ]
              exact ih i' k (by omega)

/-- C1: a collision pair of two non-static, same-tier, not-yet-popped
fruit bodies that does not trigger the lose condition, whose tier has a
successor in the catalog (tier below the last index) and whose bodies
are factory fruits (no engine circle radius, and any cached top-tier
radius is positive, as all computed radii are), merges: exactly one
successor body at tier i+1 is created at the arithmetic midpoint of the
two positions, both inputs leave the world, `fruitsMerged[i]` grows by
exactly 1 (other tiers untouched), both inputs are marked popped, and
the session state does not change. -/
theorem C1_merge_determinism (s : BState) (A B : Body) (i : ℕ)
    (hhalt : s.halted = false)
    (hsA : A.isStatic = false) (hsB : B.isStatic = false)
    (hnl : ¬ (A.posY + radD A < loseHeight ∨ B.posY + radD B < loseHeight))
    (hiA : A.sizeIndex = some i) (hiB : B.sizeIndex = some i)
    (hpA : poppedOf s.game A = false) (hpB : poppedOf s.game B = false)
    (hrA : A.circleRadius = none)
    (hm : ∀ r, lastRadius s.game = some r → 0 < r)
    (hcat : i + 1 < s.game.fruitSizes.length)
    (hfm : i < s.game.fruitsMerged.length) :
    ∃ succ : Body,
      (stepPair s (A, B)).halted = false
      ∧ (stepPair s (A, B)).log =
          s.log ++ [⟨A.id, B.id, i + 1, (A.posX + B.posX) / 2, (A.posY + B.posY) / 2⟩]
      ∧ (stepPair s (A, B)).game.world =
          (s.game.world.filter fun b => b.id ≠ A.id && b.id ≠ B.id) ++ [succ]
      ∧ succ.sizeIndex = some (i + 1)
      ∧ succ.posX = (A.posX + B.posX) / 2
      ∧ succ.posY = (A.posY + B.posY) / 2
      ∧ (stepPair s (A, B)).game.fruitsMerged.getD i 0 = s.game.fruitsMerged.getD i 0 + 1
      ∧ (∀ j, j ≠ i →
          (stepPair s (A, B)).game.fruitsMerged.getD j 0 = s.game.fruitsMerged.getD j 0)
      ∧ (stepPair s (A, B)).game.popped = A.id :: B.id :: s.game.popped
      ∧ (stepPair s (A, B)).game.stateIndex = s.game.stateIndex := by
  have hns := newSizeOf_no_wrap s.game A i hrA hm
  obtain ⟨c, hc⟩ : ∃ c, s.game.fruitSizes.get? (i + 1) = some c :=
    ⟨_, List.get?_eq_get hcat⟩
  have key := stepPair_merge s A B i c hhalt hsA hsB hnl hiA hiB hpA hpB
    (by rw [hns]; exact hc)
  rw [hns] at key
  rw [key]
  refine ⟨({ id := s.game.nextId, posX := (A.posX + B.posX) / 2,
             posY := (A.posY + B.posY) / 2, circleRadius := none,
             isStatic := false, sizeIndex := some (i + 1), popped := false } : Body),
    rfl, rfl, rfl, rfl, rfl, rfl, ?_, ?_, rfl, rfl⟩
  · show (bumpAt s.game.fruitsMerged i).getD i 0 = s.game.fruitsMerged.getD i 0 + 1
    exact bumpAt_getD_self _ _ hfm
  · intro j hj
    show (bumpAt s.game.fruitsMerged i).getD j 0 = s.game.fruitsMerged.getD j 0
    exact bumpAt_getD_ne _ _ _ hj

theorem loseGameSt_popped (g : GameState) : (loseGameSt g).popped = g.popped := by
  rw [loseGameSt, saveHighscoreSt]
  split <;> rfl

theorem loseGameSt_stateIndex (g : GameState) :
    (loseGameSt g).stateIndex = GState.LOSE := by
  rw [loseGameSt, saveHighscoreSt]
  split <;> rfl

theorem generateFruitBody_popped (g : GameState) (x y : ℚ) (k : ℕ) (st : Bool)
    (g2 : GameState) (b : Body)
    (h : generateFruitBody g x y k st = some (g2, b)) :
    g2.popped = g.popped := by
  rw [generateFruitBody] at h
  cases hg : g.fruitSizes.get? k with
  | none => rw [hg] at h; exact absurd h (by simp)
  | some c =>
      rw [hg] at h
      dsimp only at h
      have hpair := Option.some.inj h
      have hg2 := congrArg Prod.fst hpair
      dsimp only at hg2
      rw [← hg2]

theorem poppedOf_false_not_mem (g : GameState) (b : Body)
    (h : poppedOf g b = false) : b.id ∉ g.popped := by
  rw [poppedOf] at h
  simp only [Bool.or_eq_false_iff, List.contains, List.elem_eq_mem,
    decide_eq_false_iff_not] at h
  exact h.2

theorem stepPair_log_popped (s : BState) (p : Body × Body) :
    ((stepPair s p).log = s.log
      ∧ ∀ x, x ∈ s.game.popped → x ∈ (stepPair s p).game.popped)
    ∨ (∃ e : MergeEvent,
        (stepPair s p).log = s.log ++ [e]
        ∧ (stepPair s p).game.popped = e.idA :: e.idB :: s.game.popped
        ∧ e.idA ∉ s.game.popped ∧ e.idB ∉ s.game.popped) := by
  rw [stepPair]
  split
  · exact Or.inl ⟨rfl, fun x hx => hx⟩
  · dsimp only
    split
    · exact Or.inl ⟨rfl, fun x hx => hx⟩
    · split
      · refine Or.inl ⟨rfl, fun x hx => ?_⟩
        dsimp only
        rw [loseGameSt_popped]
        exact hx
      · cases hia : p.1.sizeIndex with
        | none => exact Or.inl ⟨rfl, fun x hx => hx⟩
        | some ia =>
            cases hib : p.2.sizeIndex with
            | none => exact Or.inl ⟨rfl, fun x hx => hx⟩
            | some ib =>
                dsimp only
                split
                · exact Or.inl ⟨rfl, fun x hx => hx⟩
                · split
                  · exact Or.inl ⟨rfl, fun x hx => hx⟩
                  · next hpop =>
                    simp only [Bool.or_eq_true, not_or] at hpop
                    have hpA : poppedOf s.game p.1 = false :=
                      Bool.not_eq_true _ ▸ Bool.eq_false_iff.mpr hpop.1
                    have hpB : poppedOf s.game p.2 = false :=
                      Bool.eq_false_iff.mpr hpop.2
                    split
                    · next heq =>
                      refine Or.inl ⟨rfl, fun x hx => ?_⟩
                      dsimp only
                      exact List.mem_cons_of_mem _ (List.mem_cons_of_mem _ hx)
                    · next g4 succ heq =>
                      have hpop4 := generateFruitBody_popped _ _ _ _ _ _ _ heq
                      refine Or.inr ⟨⟨p.1.id, p.2.id, newSizeOf s.game p.1 ia,
                        (p.1.posX + p.2.posX) / 2, (p.1.posY + p.2.posY) / 2⟩,
                        rfl, ?_, poppedOf_false_not_mem _ _ hpA, poppedOf_false_not_mem _ _ hpB⟩
                      dsimp only
                      rw [calculateScoreSt]
                      dsimp only
                      rw [hpop4]

theorem processPairs_nil (s : BState) : processPairs s [] = s := rfl

theorem processPairs_cons (s : BState) (p : Body × Body) (ps : List (Body × Body)) :
    processPairs s (p :: ps) = processPairs (stepPair s p) ps := rfl

theorem countInputs_append (id : ℕ) (l1 l2 : List MergeEvent) :
    countInputs id (l1 ++ l2) = countInputs id l1 + countInputs id l2 := by
  simp [countInputs, List.countP_append]

theorem countInputs_single_ne (id : ℕ) (e : MergeEvent)
    (h1 : e.idA ≠ id) (h2 : e.idB ≠ id) : countInputs id [e] = 0 := by
  simp [countInputs, List.countP_cons, h1, h2]

theorem countInputs_single_le (id : ℕ) (e : MergeEvent) : countInputs id [e] ≤ 1 := by
  simp only [countInputs, List.countP_cons, List.countP_nil]
  split <;> omega

theorem processPairs_countInputs_popped :
    ∀ (ps : List (Body × Body)) (s : BState) (id : ℕ),
      id ∈ s.game.popped →
      countInputs id (processPairs s ps).log = countInputs id s.log := by
  intro ps
  induction ps with
  | nil => intro s id _; rfl
  | cons p rest ih =>
      intro s id h
      rw [processPairs_cons]
      rcases stepPair_log_popped s p with ⟨hlog, hmono⟩ | ⟨e, hlog, hpop, hA, hB⟩
      · rw [ih _ _ (hmono id h), hlog]
      · have hid2 : id ∈ (stepPair s p).game.popped := by
          rw [hpop]
          exact List.mem_cons_of_mem _ (List.mem_cons_of_mem _ h)
        rw [ih _ _ hid2, hlog, countInputs_append,
          countInputs_single_ne id e (fun hEq => hA (hEq ▸ h)) (fun hEq => hB (hEq ▸ h))]
        omega

theorem processPairs_countInputs_le :
    ∀ (ps : List (Body × Body)) (s : BState) (id : ℕ),
      countInputs id (processPairs s ps).log ≤
        countInputs id s.log + (if id ∈ s.game.popped then 0 else 1) := by
  intro ps
  induction ps with
  | nil =>
      intro s id
      rw [processPairs_nil]
      split <;> omega
  | cons p rest ih =>
      intro s id
      rw [processPairs_cons]
      by_cases hid : id ∈ s.game.popped
      · rw [if_pos hid]
        rcases stepPair_log_popped s p with ⟨hlog, hmono⟩ | ⟨e, hlog, hpop, hA, hB⟩
        · rw [processPairs_countInputs_popped rest _ id (hmono id hid), hlog]
          omega
        · have hid2 : id ∈ (stepPair s p).game.popped := by
            rw [hpop]
            exact List.mem_cons_of_mem _ (List.mem_cons_of_mem _ hid)
          rw [processPairs_countInputs_popped rest _ id hid2, hlog, countInputs_append,
            countInputs_single_ne id e (fun hEq => hA (hEq ▸ hid)) (fun hEq => hB (hEq ▸ hid))]
      · rw [if_neg hid]
        rcases stepPair_log_popped s p with ⟨hlog, hmono⟩ | ⟨e, hlog, hpop, hA, hB⟩
        · have hb := ih (stepPair s p) id
          rw [hlog] at hb
          have hite : (if id ∈ (stepPair s p).game.popped then 0 else 1) ≤ 1 := by
            split <;> omega
          omega
        · by_cases hin : e.idA = id ∨ e.idB = id
          · have hid2 : id ∈ (stepPair s p).game.popped := by
              rw [hpop]
              rcases hin with h1 | h1
              · rw [h1]
                exact List.mem_cons_self _ _
              · rw [h1]
                exact List.mem_cons_of_mem _ (List.mem_cons_self _ _)
            rw [processPairs_countInputs_popped rest _ id hid2, hlog, countInputs_append]
            have := countInputs_single_le id e
            omega
          · push_neg at hin
            have hb := ih (stepPair s p) id
            rw [hlog, countInputs_append, countInputs_single_ne id e hin.1 hin.2] at hb
            have hite : (if id ∈ (stepPair s p).game.popped then 0 else 1) ≤ 1 := by
              split <;> omega
            omega

theorem stepPair_halted_id (s : BState) (p : Body × Body) (h : s.halted = true) :
    stepPair s p = s := by
  rw [stepPair, if_pos h]

theorem processPairs_halted_id :
    ∀ (ps : List (Body × Body)) (s : BState), s.halted = true → processPairs s ps = s := by
  intro ps
  induction ps with
  | nil => intro s _; rfl
  | cons p rest ih =>
      intro s h
      rw [processPairs_cons, stepPair_halted_id s p h]
      exact ih s h

/-- C2 counterexample: a non-static pair whose claimed top edge
`position.y - radius` is numerically below `loseHeight`, which the
handler nevertheless does not send to LOSE (the code adds the radius
instead of subtracting it). -/
theorem C2_counterexample :
    c2X.isStatic = false ∧ c2Y.isStatic = false
    ∧ c2X.posY - radD c2X < loseHeight
    ∧ (processBatch readyState [(c2X, c2Y)]).game.stateIndex ≠ GState.LOSE := by
  refine ⟨rfl, rfl, by norm_num [c2X, radD, loseHeight], ?_⟩
  have hred :
      (processBatch readyState [(c2X, c2Y)]).game.stateIndex = GState.READY := by
    norm_num [processBatch, processPairs, stepPair, c2X, c2Y, readyState, radD, loseHeight]
  rw [hred]
  exact fun h => GState.noConfusion h

/-- C2 (amended): during batch processing, when the handler reaches a
pair of non-static bodies either of whose `position.y + (circleRadius
or 0)` value is numerically less than `loseHeight`, the session
transitions to LOSE immediately and the remaining pairs of the batch are
not processed: the final batch state is exactly the lose transition
applied at that point, whatever the remaining pairs are. -/
theorem C2_lose_aborts_batch (g : GameState) (ps1 ps2 : List (Body × Body)) (A B : Body)
    (hh : (processPairs ⟨g, [], false⟩ ps1).halted = false)
    (hA : A.isStatic = false) (hB : B.isStatic = false)
    (hlose : A.posY + radD A < loseHeight ∨ B.posY + radD B < loseHeight) :
    processBatch g (ps1 ++ (A, B) :: ps2) =
      ⟨loseGameSt (processPairs ⟨g, [], false⟩ ps1).game,
       (processPairs ⟨g, [], false⟩ ps1).log, true⟩
    ∧ (processBatch g (ps1 ++ (A, B) :: ps2)).game.stateIndex = GState.LOSE := by
  have hstep : stepPair (processPairs ⟨g, [], false⟩ ps1) (A, B) =
      ⟨loseGameSt (processPairs ⟨g, [], false⟩ ps1).game,
       (processPairs ⟨g, [], false⟩ ps1).log, true⟩ := by
    rw [stepPair, if_neg (by simp [hh])]
    dsimp only
    rw [if_neg (by simp [hA, hB])]
    rw [if_pos hlose]
  have hmain : processBatch g (ps1 ++ (A, B) :: ps2) =
      ⟨loseGameSt (processPairs ⟨g, [], false⟩ ps1).game,
       (processPairs ⟨g, [], false⟩ ps1).log, true⟩ := by
    rw [processBatch, processPairs, List.foldl_append, List.foldl_cons]
    rw [processPairs] at hstep
    rw [hstep]
    exact processPairs_halted_id ps2 _ rfl
  refine ⟨hmain, ?_⟩
  rw [hmain]
  exact loseGameSt_stateIndex _

/-- C5: in any collision batch each body id is consumed by at most one
merge; in particular three mutually touching tier-0 fruits reported as
the two overlapping pairs (A,B), (B,C) produce exactly one merge: one
tier-1 successor at the midpoint of A and B, ids 1 and 2 popped and
removed, and the third fruit left in the world and unpopped. -/
theorem C5_single_merge_per_body :
    (∀ (g : GameState) (ps : List (Body × Body)) (id : ℕ),
        countInputs id (processBatch g ps).log ≤ 1)
    ∧ (processBatch tripleState [(c5A, c5B), (c5B, c5C)]).log =
        [⟨1, 2, 1, 120, 400⟩]
    ∧ (processBatch tripleState [(c5A, c5B), (c5B, c5C)]).game.popped = [1, 2]
    ∧ (processBatch tripleState [(c5A, c5B), (c5B, c5C)]).game.fruitsMerged =
        [1, 0, 0, 0, 0, 0, 0, 0, 0, 0, 0]
    ∧ (processBatch tripleState [(c5A, c5B), (c5B, c5C)]).game.world =
        [c5C, { id := 10, posX := 120, posY := 400, circleRadius := none,
                isStatic := false, sizeIndex := some 1, popped := false }]
    ∧ c5C.id ∉ (processBatch tripleState [(c5A, c5B), (c5B, c5C)]).game.popped := by
  refine ⟨?_, ?_, ?_, ?_, ?_, ?_⟩
  · intro g ps id
    have h := processPairs_countInputs_le ps ⟨g, [], false⟩ id
    have h0 : countInputs id ([] : List MergeEvent) = 0 := rfl
    rw [h0] at h
    have hite : (if id ∈ (⟨g, [], false⟩ : BState).game.popped then 0 else 1) ≤ 1 := by
      split <;> omega
    rw [processBatch]
    omega
  · norm_num [processBatch, processPairs, stepPair, newSizeOf, radD, loseHeight, poppedOf,
      lastRadius, generateFruitBody, calculateScoreSt, calcScore, calcScoreAux, bumpAt,
      defaultFruitSizes, tripleState, readyState, c5A, c5B, c5C, List.filter]
  · norm_num [processBatch, processPairs, stepPair, newSizeOf, radD, loseHeight, poppedOf,
      lastRadius, generateFruitBody, calculateScoreSt, calcScore, calcScoreAux, bumpAt,
      defaultFruitSizes, tripleState, readyState, c5A, c5B, c5C, List.filter]
  · norm_num [processBatch, processPairs, stepPair, newSizeOf, radD, loseHeight, poppedOf,
      lastRadius, generateFruitBody, calculateScoreSt, calcScore, calcScoreAux, bumpAt,
      defaultFruitSizes, tripleState, readyState, c5A, c5B, c5C, List.filter]
  · norm_num [processBatch, processPairs, stepPair, newSizeOf, radD, loseHeight, poppedOf,
      lastRadius, generateFruitBody, calculateScoreSt, calcScore, calcScoreAux, bumpAt,
      defaultFruitSizes, tripleState, readyState, c5A, c5B, c5C, List.filter]
  · norm_num [processBatch, processPairs, stepPair, newSizeOf, radD, loseHeight, poppedOf,
      lastRadius, generateFruitBody, calculateScoreSt, calcScore, calcScoreAux, bumpAt,
      defaultFruitSizes, tripleState, readyState, c5A, c5B, c5C, List.filter]

/-- C3: a processed same-tier pair whose body A carries an engine radius
at or above the (nonzero) cached top-tier radius merges into tier 0, not
tier `lastTierIndex + 1`; and generating any body at the last catalog
index caches exactly that tier's computed radius
`textureSize * physicsScale / 2`, which is how the cached value the
wraparound test reads comes to be the top tier's computed radius. -/
theorem C3_top_tier_wraparound (s : BState) (A B : Body) (ia : ℕ) (r : ℚ)
    (hhalt : s.halted = false)
    (hsA : A.isStatic = false) (hsB : B.isStatic = false)
    (hnl : ¬ (A.posY + radD A < loseHeight ∨ B.posY + radD B < loseHeight))
    (hiA : A.sizeIndex = some ia) (hiB : B.sizeIndex = some ia)
    (hpA : poppedOf s.game A = false) (hpB : poppedOf s.game B = false)
    (hlr : lastRadius s.game = some r) (hr0 : r ≠ 0) (hge : radD A ≥ r)
    (hcat0 : 0 < s.game.fruitSizes.length) :
    (∃ succ : Body,
      (stepPair s (A, B)).halted = false
      ∧ (stepPair s (A, B)).log =
          s.log ++ [⟨A.id, B.id, 0, (A.posX + B.posX) / 2, (A.posY + B.posY) / 2⟩]
      ∧ (stepPair s (A, B)).game.world =
          (s.game.world.filter fun b => b.id ≠ A.id && b.id ≠ B.id) ++ [succ]
      ∧ succ.sizeIndex = some 0)
    ∧ (∀ (g : GameState) (x y : ℚ) (st : Bool) (g2 : GameState) (b : Body) (c : FruitSize),
        g.fruitSizes.get? (g.fruitSizes.length - 1) = some c →
        generateFruitBody g x y (g.fruitSizes.length - 1) st = some (g2, b) →
        lastRadius g2 = some c.computedRadius) := by
  constructor
  · have hns := newSizeOf_wrap s.game A ia r hlr hr0 hge
    obtain ⟨c, hc⟩ : ∃ c, s.game.fruitSizes.get? 0 = some c :=
      ⟨_, List.get?_eq_get hcat0⟩
    have key := stepPair_merge s A B ia c hhalt hsA hsB hnl hiA hiB hpA hpB
      (by rw [hns]; exact hc)
    rw [hns] at key
    rw [key]
    exact ⟨({ id := s.game.nextId, posX := (A.posX + B.posX) / 2,
              posY := (A.posY + B.posY) / 2, circleRadius := none,
              isStatic := false, sizeIndex := some 0, popped := false } : Body),
      rfl, rfl, rfl, rfl⟩
  · intro g x y st g2 b c hget hgen
    obtain ⟨hlt, -⟩ := List.get?_eq_some.mp hget
    rw [generateFruitBody, hget] at hgen
    dsimp only at hgen
    have hpair := Option.some.inj hgen
    have hg2 := congrArg Prod.fst hpair
    dsimp only at hg2
    rw [← hg2, lastRadius]
    dsimp only
    rw [List.getLast?_eq_getElem?, List.length_set,
      List.getElem?_set_self hlt]
    rfl

theorem pair_no_lose :
    ¬ (c5A.posY + radD c5A < loseHeight ∨ c5B.posY + radD c5B < loseHeight) := by
  norm_num [c5A, c5B, radD, loseHeight]

theorem pairState_lastRadius_pos :
    ∀ r, lastRadius pairState.game = some r → 0 < r := by
  intro r h
  simp [lastRadius, pairState, readyState, defaultFruitSizes] at h

/-- C1 witness: a concrete tier-0 pair in the default catalog session. -/
theorem C1_merge_determinism_witness :
    (pairState.halted = false
      ∧ c5A.isStatic = false ∧ c5B.isStatic = false
      ∧ ¬ (c5A.posY + radD c5A < loseHeight ∨ c5B.posY + radD c5B < loseHeight)
      ∧ c5A.sizeIndex = some 0 ∧ c5B.sizeIndex = some 0
      ∧ poppedOf pairState.game c5A = false ∧ poppedOf pairState.game c5B = false
      ∧ c5A.circleRadius = none
      ∧ (∀ r, lastRadius pairState.game = some r → 0 < r)
      ∧ 0 + 1 < pairState.game.fruitSizes.length
      ∧ 0 < pairState.game.fruitsMerged.length)
    ∧ (∃ succ : Body,
        (stepPair pairState (c5A, c5B)).halted = false
        ∧ (stepPair pairState (c5A, c5B)).log =
            pairState.log ++
              [⟨c5A.id, c5B.id, 0 + 1, (c5A.posX + c5B.posX) / 2, (c5A.posY + c5B.posY) / 2⟩]
        ∧ (stepPair pairState (c5A, c5B)).game.world =
            (pairState.game.world.filter fun b => b.id ≠ c5A.id && b.id ≠ c5B.id) ++ [succ]
        ∧ succ.sizeIndex = some (0 + 1)
        ∧ succ.posX = (c5A.posX + c5B.posX) / 2
        ∧ succ.posY = (c5A.posY + c5B.posY) / 2
        ∧ (stepPair pairState (c5A, c5B)).game.fruitsMerged.getD 0 0 =
            pairState.game.fruitsMerged.getD 0 0 + 1
        ∧ (∀ j, j ≠ 0 →
            (stepPair pairState (c5A, c5B)).game.fruitsMerged.getD j 0 =
              pairState.game.fruitsMerged.getD j 0)
        ∧ (stepPair pairState (c5A, c5B)).game.popped = c5A.id :: c5B.id :: pairState.game.popped
        ∧ (stepPair pairState (c5A, c5B)).game.stateIndex = pairState.game.stateIndex) :=
  ⟨⟨rfl, rfl, rfl, pair_no_lose, rfl, rfl, by decide, by decide, rfl,
    pairState_lastRadius_pos, by decide, by decide⟩,
   C1_merge_determinism pairState c5A c5B 0 rfl rfl rfl pair_no_lose rfl rfl
     (by decide) (by decide) rfl pairState_lastRadius_pos (by decide) (by decide)⟩

theorem c2_losing_pair :
    c2L.posY + radD c2L < loseHeight ∨ c2M.posY + radD c2M < loseHeight :=
  Or.inl (by norm_num [c2L, radD, loseHeight])

/-- C2 witness: a batch whose first pair triggers the lose condition and
whose second pair is merge-eligible ends in LOSE with an empty merge
log, so the merge pair is never processed. -/
theorem C2_lose_aborts_batch_witness :
    ((processPairs ⟨tripleState, [], false⟩ []).halted = false
      ∧ c2L.isStatic = false ∧ c2M.isStatic = false
      ∧ (c2L.posY + radD c2L < loseHeight ∨ c2M.posY + radD c2M < loseHeight))
    ∧ (processBatch tripleState ([] ++ (c2L, c2M) :: [(c5A, c5B)]) =
        ⟨loseGameSt (processPairs ⟨tripleState, [], false⟩ []).game,
         (processPairs ⟨tripleState, [], false⟩ []).log, true⟩
      ∧ (processBatch tripleState ([] ++ (c2L, c2M) :: [(c5A, c5B)])).game.stateIndex =
          GState.LOSE) :=
  ⟨⟨rfl, rfl, rfl, c2_losing_pair⟩,
   C2_lose_aborts_batch tripleState [] [(c5A, c5B)] c2L c2M rfl rfl rfl c2_losing_pair⟩

theorem c3_no_lose :
    ¬ (c3A.posY + radD c3A < loseHeight ∨ c3B.posY + radD c3B < loseHeight) := by
  norm_num [c3A, c3B, radD, loseHeight]

theorem c3_lastRadius : lastRadius c3S.game = some (191.777 : ℚ) := by
  simp [lastRadius, c3S, readyState, c3Sizes]

theorem c3_radius_ge : radD c3A ≥ (191.777 : ℚ) := by
  norm_num [radD, c3A]

theorem c3_radius_ne : (191.777 : ℚ) ≠ 0 := by norm_num

/-- C3 witness: two cached-terminal-tier fruits with engine radius 192
wrap around to a tier-0 successor. -/
theorem C3_top_tier_wraparound_witness :
    (c3S.halted = false
      ∧ c3A.isStatic = false ∧ c3B.isStatic = false
      ∧ ¬ (c3A.posY + radD c3A < loseHeight ∨ c3B.posY + radD c3B < loseHeight)
      ∧ c3A.sizeIndex = some 10 ∧ c3B.sizeIndex = some 10
      ∧ poppedOf c3S.game c3A = false ∧ poppedOf c3S.game c3B = false
      ∧ lastRadius c3S.game = some (191.777 : ℚ)
      ∧ (191.777 : ℚ) ≠ 0
      ∧ radD c3A ≥ (191.777 : ℚ)
      ∧ 0 < c3S.game.fruitSizes.length)
    ∧ ((∃ succ : Body,
        (stepPair c3S (c3A, c3B)).halted = false
        ∧ (stepPair c3S (c3A, c3B)).log =
            c3S.log ++ [⟨c3A.id, c3B.id, 0, (c3A.posX + c3B.posX) / 2,
                         (c3A.posY + c3B.posY) / 2⟩]
        ∧ (stepPair c3S (c3A, c3B)).game.world =
            (c3S.game.world.filter fun b => b.id ≠ c3A.id && b.id ≠ c3B.id) ++ [succ]
        ∧ succ.sizeIndex = some 0)
      ∧ (∀ (g : GameState) (x y : ℚ) (st : Bool) (g2 : GameState) (b : Body) (c : FruitSize),
          g.fruitSizes.get? (g.fruitSizes.length - 1) = some c →
          generateFruitBody g x y (g.fruitSizes.length - 1) st = some (g2, b) →
          lastRadius g2 = some c.computedRadius)) :=
  ⟨⟨rfl, rfl, rfl, c3_no_lose, rfl, rfl, by decide, by decide, c3_lastRadius,
    c3_radius_ne, c3_radius_ge, by decide⟩,
   C3_top_tier_wraparound c3S c3A c3B 10 (191.777 : ℚ) rfl rfl rfl c3_no_lose rfl rfl
     (by decide) (by decide) c3_lastRadius c3_radius_ne c3_radius_ge (by decide)⟩

/-- C5 witness: the at-most-one-merge bound evaluated at the triple
scenario for body id 1. -/
theorem C5_single_merge_per_body_witness :
    countInputs 1 (processBatch tripleState [(c5A, c5B), (c5B, c5C)]).log ≤ 1 :=
  C5_single_merge_per_body.1 tripleState [(c5A, c5B), (c5B, c5C)] 1

theorem readyState_no_preview :
    ∀ pb, readyState.previewBall = some pb → pb.id ≠ readyState.nextId := by
  intro pb h
  simp [readyState] at h

/-- C10 witness: a concrete READY drop from the initial session. -/
theorem C10_next_fruit_low_tier_witness :
    (readyState.stateIndex = GState.READY ∧ readyState.currentFruitSize < 5
      ∧ readyState.nextFruitSize < 5 ∧ readyState.fruitSizes.length = 11
      ∧ (∀ pb, readyState.previewBall = some pb → pb.id ≠ readyState.nextId))
    ∧ (∃ (g1 : GameState) (latest : Body),
        addFruit readyState 320 = some g1
        ∧ latest.sizeIndex = some readyState.currentFruitSize
        ∧ readyState.currentFruitSize < 5
        ∧ latest ∈ g1.world
        ∧ g1.currentFruitSize = readyState.nextFruitSize
        ∧ g1.currentFruitSize < 5
        ∧ g1.nextFruitSize < 5) :=
  ⟨⟨rfl, by decide, by decide, by decide, readyState_no_preview⟩,
   C10_next_fruit_low_tier.2 readyState 320 rfl (by decide) (by decide) (by decide)
     readyState_no_preview⟩
